import Mathlib

/-!
Verification of `pip/_internal/metadata/base.py`: the abstract
distribution/environment contract, the PEP 508 name-validation rule in
`BaseEnvironment.iter_distributions`, and the boolean filter pipeline in
`BaseEnvironment.iter_installed_distributions`.

Python strings are modelled as Lean `String`; the lazy generators are
modelled as finite `List`s (each enumeration call materialises the finite
stream that iteration would produce); `logger.warning` calls are modelled
by collecting the warning payloads in a list.
-/

namespace PipMetadata

/-- One character of the class `[A-Z0-9]` matched with `re.IGNORECASE`,
i.e. an ASCII letter (either case) or digit.  Used at both ends of the
project-name pattern in `iter_distributions`. -/
def isEdgeChar (c : Char) : Bool :=
  ('A' ≤ c && c ≤ 'Z') || ('a' ≤ c && c ≤ 'z') || ('0' ≤ c && c ≤ '9')

/-- One character of the class `[A-Z0-9._-]` matched with `re.IGNORECASE`:
an ASCII alphanumeric or one of `.`, `_`, `-`.  The middle run of the
project-name pattern. -/
def isMidChar (c : Char) : Bool :=
  isEdgeChar c || c == '.' || c == '_' || c == '-'

/-- Matches `[A-Z0-9._-]*[A-Z0-9]` (IGNORECASE) against an entire
character list: every character but the last is a mid character and the
last is an edge character. -/
def midRunThenEdge : List Char → Bool
  | [] => false
  | [c] => isEdgeChar c
  | c :: rest => isMidChar c && midRunThenEdge rest

/-- The anchored regular expression
`^([A-Z0-9]|[A-Z0-9][A-Z0-9._-]*[A-Z0-9])$` with `re.IGNORECASE` from
`BaseEnvironment.iter_distributions`, as a whole-string matcher: either a
single alphanumeric character, or an alphanumeric, then a (possibly
empty) run of alphanumerics/`.`/`_`/`-`, ending in an alphanumeric. -/
def matchesProjectNamePattern : List Char → Bool
  | [] => false
  | [c] => isEdgeChar c
  | c :: rest => isEdgeChar c && midRunThenEdge rest

/-- `project_name_valid` from `iter_distributions`: whether
`re.match(r"^([A-Z0-9]|[A-Z0-9][A-Z0-9._-]*[A-Z0-9])$", s, re.IGNORECASE)`
succeeds on the string `s`. -/
def project_name_valid (s : String) : Bool :=
  matchesProjectNamePattern s.data

/-- The observable fields of one concrete distribution, as read by the
filtering pipeline: `canonical_name`, `location`, `local`, `editable`,
`in_usersite` (the field `local` is renamed `is_local` because `local` is
a Lean keyword). -/
structure BaseDistribution where
  canonical_name : String
  location : Option String
  is_local : Bool
  editable : Bool
  in_usersite : Bool
  deriving DecidableEq, Repr

/-- Payload of the `logger.warning("Ignoring invalid distribution %s (%s)",
dist.canonical_name, dist.location)` call in `iter_distributions`. -/
structure Warning where
  name : String
  location : Option String
  deriving DecidableEq, Repr

/-- `BaseEnvironment.iter_distributions`: walk the raw stream produced by
`_iter_distributions`; yield each distribution whose `canonical_name`
matches the project-name pattern, and for each one that does not, emit a
warning naming it and its location and skip it (`continue`). -/
def iter_distributions : List BaseDistribution → List BaseDistribution × List Warning
  | [] => ([], [])
  | dist :: rest =>
    let out := iter_distributions rest
    if project_name_valid dist.canonical_name then
      (dist :: out.1, out.2)
    else
      (out.1, ⟨dist.canonical_name, dist.location⟩ :: out.2)

/-- Modelled from the spec: `stdlib_pkgs` lives in
`pip._internal.utils.misc`, outside this fragment; the spec describes it
as the process-wide immutable set of names of the runtime's own
standard-library pseudo-packages, the default `skip` set. -/
def stdlib_pkgs : List String := ["python", "wsgiref", "argparse"]

/-- `BaseEnvironment.iter_installed_distributions`: the validated stream
of `iter_distributions` narrowed by the five generator-expression
filters, in source order.  `skip` membership is `in` on the container. -/
def iter_installed_distributions (env : List BaseDistribution)
    (local_only : Bool) (skip : List String) (include_editables : Bool)
    (editables_only : Bool) (user_only : Bool) : List BaseDistribution :=
  let it := (iter_distributions env).1
  let it := if local_only then it.filter (fun d => d.is_local) else it
  let it := if !include_editables then it.filter (fun d => !d.editable) else it
  let it := if editables_only then it.filter (fun d => d.editable) else it
  let it := if user_only then it.filter (fun d => d.in_usersite) else it
  it.filter (fun d => !skip.contains d.canonical_name)

/-- `iter_installed_distributions` with every argument left at its
default: `local_only=True`, `skip=stdlib_pkgs`, `include_editables=True`,
`editables_only=False`, `user_only=False`. -/
def iter_installed_distributions_defaults (env : List BaseDistribution) :
    List BaseDistribution :=
  iter_installed_distributions env true stdlib_pkgs true false false

/-- One ASCII alphanumeric character, the class `[A-Za-z0-9]` of the
spec's pattern. -/
def specAlnum (c : Char) : Bool :=
  ('A' ≤ c && c ≤ 'Z') || ('a' ≤ c && c ≤ 'z') || ('0' ≤ c && c ≤ '9')

/-- One character of the spec pattern's middle class `[A-Za-z0-9._-]`. -/
def specMid (c : Char) : Bool :=
  specAlnum c || c == '.' || c == '_' || c == '-'

/-- Matches `[A-Za-z0-9._-]*[A-Za-z0-9]` against an entire character
list. -/
def specTail : List Char → Bool
  | [] => false
  | [c] => specAlnum c
  | c :: rest => specMid c && specTail rest

/-- The spec's name-shape rule, written from its words: the whole string
matches `^[A-Za-z0-9]([A-Za-z0-9._-]*[A-Za-z0-9])?$` — one alphanumeric
character, optionally followed by a middle run of
alphanumerics/`.`/`_`/`-` ending in an alphanumeric character. -/
def spec_name_valid (s : String) : Bool :=
  match s.data with
  | [] => false
  | [c] => specAlnum c
  | c :: rest => specAlnum c && specTail rest

theorem midRunThenEdge_eq_specTail (l : List Char) :
    midRunThenEdge l = specTail l := by
  induction l with
  | nil => rfl
  | cons c rest ih =>
    cases rest with
    | nil => rfl
    | cons c2 rest2 =>
      simp only [midRunThenEdge, specTail, isMidChar, isEdgeChar, specMid,
        specAlnum] at *
      rw [ih]

/-- The source's pattern and the spec's pattern accept the same
strings. -/
theorem project_name_valid_eq_spec (s : String) :
    project_name_valid s = spec_name_valid s := by
  unfold project_name_valid spec_name_valid matchesProjectNamePattern
  cases h : s.data with
  | nil => rfl
  | cons c rest =>
    cases rest with
    | nil => rfl
    | cons c2 rest2 =>
      simp only [isEdgeChar, specAlnum, midRunThenEdge_eq_specTail]

theorem iter_distributions_fst (l : List BaseDistribution) :
    (iter_distributions l).1
      = l.filter (fun d => project_name_valid d.canonical_name) := by
  induction l with
  | nil => rfl
  | cons d rest ih =>
    simp only [iter_distributions, List.filter_cons]
    cases h : project_name_valid d.canonical_name <;> simp [h, ih]

theorem iter_distributions_snd (l : List BaseDistribution) :
    (iter_distributions l).2
      = (l.filter (fun d => !project_name_valid d.canonical_name)).map
          (fun d => ⟨d.canonical_name, d.location⟩) := by
  induction l with
  | nil => rfl
  | cons d rest ih =>
    simp only [iter_distributions, List.filter_cons]
    cases h : project_name_valid d.canonical_name <;> simp [h, ih]

theorem ite_filter_eq (b : Bool) (p : BaseDistribution → Bool)
    (l : List BaseDistribution) :
    (if b then l.filter p else l) = l.filter (fun d => !b || p d) := by
  cases b <;> simp

/-- The five generator filters of `iter_installed_distributions` collapse
to one filter by the conjunction of the five predicates, over the
validated stream. -/
theorem iter_installed_distributions_eq_filter (env : List BaseDistribution)
    (lo : Bool) (skip : List String) (ie eo uo : Bool) :
    iter_installed_distributions env lo skip ie eo uo
      = (iter_distributions env).1.filter
          (fun d => (!lo || d.is_local) && (ie || !d.editable)
            && (!eo || d.editable) && (!uo || d.in_usersite)
            && !skip.contains d.canonical_name) := by
  simp only [iter_installed_distributions]
  rw [ite_filter_eq, ite_filter_eq, ite_filter_eq, ite_filter_eq,
    List.filter_filter, List.filter_filter, List.filter_filter,
    List.filter_filter]
  apply List.filter_congr
  intro d _
  have key : ∀ a b c d e : Bool,
      (e && d && c && b && a) = (a && b && c && d && e) := by decide
  simpa using key (!lo || d.is_local) (ie || !d.editable)
    (!eo || d.editable) (!uo || d.in_usersite)
    (!skip.contains d.canonical_name)

/-- C1: `iter_distributions` yields exactly the raw distributions whose
`canonical_name` matches `^[A-Za-z0-9]([A-Za-z0-9._-]*[A-Za-z0-9])?$`
(the spec's pattern, matched case-insensitively), and emits exactly one
warning, carrying the offending name and its location, for each raw
distribution whose name does not match. -/
theorem iter_distributions_validates_names (raw : List BaseDistribution) :
    (iter_distributions raw).1
        = raw.filter (fun d => spec_name_valid d.canonical_name)
      ∧ (iter_distributions raw).2
        = (raw.filter (fun d => !spec_name_valid d.canonical_name)).map
            (fun d => ⟨d.canonical_name, d.location⟩) := by
  constructor
  · rw [iter_distributions_fst]
    exact List.filter_congr fun d _ => project_name_valid_eq_spec _
  · rw [iter_distributions_snd]
    congr 1
    exact List.filter_congr fun d _ => by rw [project_name_valid_eq_spec]

/-- C7: `iter_distributions` preserves the raw hook's traversal order:
its output is the order-preserving filter of the raw stream by name
validity, hence a sublist of the raw stream. -/
theorem iter_distributions_preserves_order (raw : List BaseDistribution) :
    (iter_distributions raw).1
        = raw.filter (fun d => project_name_valid d.canonical_name)
      ∧ List.Sublist (iter_distributions raw).1 raw := by
  refine ⟨iter_distributions_fst raw, ?_⟩
  rw [iter_distributions_fst]
  exact List.filter_sublist raw

/-- C2: with every argument at its default,
`iter_installed_distributions` yields exactly the validated distributions
that are local and whose canonical name is not in the standard-library
skip set. -/
theorem iter_installed_distributions_defaults_spec
    (env : List BaseDistribution) :
    iter_installed_distributions_defaults env
      = (iter_distributions env).1.filter
          (fun d => d.is_local && !stdlib_pkgs.contains d.canonical_name) := by
  unfold iter_installed_distributions_defaults
  rw [iter_installed_distributions_eq_filter]
  apply List.filter_congr
  intro d _
  simp

/-- C4: requesting `include_editables = false` and `editables_only = true`
at once yields the empty sequence for every input and every other flag
setting. -/
theorem iter_installed_distributions_contradictory_editable_flags
    (env : List BaseDistribution) (lo : Bool) (skip : List String)
    (uo : Bool) (hne : env ≠ []) :
    iter_installed_distributions env lo skip false true uo = [] := by
  rw [iter_installed_distributions_eq_filter]
  apply List.filter_eq_nil_iff.mpr
  intro d _
  cases d.editable <;> simp

/-- Witness for C4 at a concrete non-empty environment. -/
theorem iter_installed_distributions_contradictory_editable_flags_witness :
    ([⟨"requests", none, true, true, true⟩] : List BaseDistribution) ≠ []
      ∧ iter_installed_distributions
          [⟨"requests", none, true, true, true⟩] true [] false true false
          = [] :=
  ⟨by decide,
    iter_installed_distributions_contradictory_editable_flags
      [⟨"requests", none, true, true, true⟩] true [] false (by decide)⟩

/-- C6: for every flag setting and skip set,
`iter_installed_distributions` is the filter of the validated stream by
the conjunction of the five predicates — in particular membership in the
result is exactly the stated conjunction, independent of the order the
filters were chained in. -/
theorem iter_installed_distributions_conjunction (env : List BaseDistribution)
    (lo : Bool) (skip : List String) (ie eo uo : Bool) :
    iter_installed_distributions env lo skip ie eo uo
        = (iter_distributions env).1.filter
            (fun d => (!lo || d.is_local) && (ie || !d.editable)
              && (!eo || d.editable) && (!uo || d.in_usersite)
              && !skip.contains d.canonical_name)
      ∧ ∀ d, d ∈ iter_installed_distributions env lo skip ie eo uo
          ↔ d ∈ (iter_distributions env).1
            ∧ (lo = true → d.is_local = true)
            ∧ (ie = false → d.editable = false)
            ∧ (eo = true → d.editable = true)
            ∧ (uo = true → d.in_usersite = true)
            ∧ ¬ d.canonical_name ∈ skip := by
  refine ⟨iter_installed_distributions_eq_filter env lo skip ie eo uo, ?_⟩
  intro d
  rw [iter_installed_distributions_eq_filter, List.mem_filter]
  constructor
  · rintro ⟨hmem, hpred⟩
    refine ⟨hmem, ?_⟩
    cases lo <;> cases ie <;> cases eo <;> cases uo
      <;> cases h1 : d.is_local <;> cases h2 : d.editable
      <;> cases h3 : d.in_usersite
      <;> simp_all [List.elem_iff]
  · rintro ⟨hmem, hpred⟩
    refine ⟨hmem, ?_⟩
    cases lo <;> cases ie <;> cases eo <;> cases uo
      <;> cases h1 : d.is_local <;> cases h2 : d.editable
      <;> cases h3 : d.in_usersite
      <;> simp_all [List.elem_iff]

/-- C9: for every flag setting and skip set, the output of
`iter_installed_distributions` is an order-preserving subsequence of the
output of `iter_distributions` on the same raw input, and every
distribution it yields has a canonical name that passed validation. -/
theorem iter_installed_distributions_sublist_of_validated
    (env : List BaseDistribution) (lo : Bool) (skip : List String)
    (ie eo uo : Bool) :
    List.Sublist (iter_installed_distributions env lo skip ie eo uo)
        ((iter_distributions env).1)
      ∧ ∀ d ∈ iter_installed_distributions env lo skip ie eo uo,
          project_name_valid d.canonical_name = true := by
  constructor
  · rw [iter_installed_distributions_eq_filter]
    exact List.filter_sublist _
  · intro d hd
    rw [iter_installed_distributions_eq_filter] at hd
    have hv : d ∈ (iter_distributions env).1 := (List.mem_filter.mp hd).1
    rw [iter_distributions_fst] at hv
    exact (List.mem_filter.mp hv).2

/-- The `requests` entry of the spec's three-entry scenario. -/
def requests_dist : BaseDistribution := ⟨"requests", none, true, false, false⟩

/-- The malformed `~atplotlib` leftover of the scenario. -/
def atplotlib_dist : BaseDistribution :=
  ⟨"~atplotlib", none, true, false, false⟩

/-- The `pip-tools` entry of the scenario: not local, editable, in the
user site. -/
def pip_tools_dist : BaseDistribution := ⟨"pip-tools", none, false, true, true⟩

/-- The raw stream of the spec's scenario. -/
def scenario_env : List BaseDistribution :=
  [requests_dist, atplotlib_dist, pip_tools_dist]

/-- C3, counterexample: in the scenario,
`iter_installed_distributions(user_only=True)` does not yield
`pip-tools` — `local_only` keeps its default `True` and `pip-tools` is
not local, so it is filtered out. -/
theorem scenario_user_only_ne_pip_tools :
    iter_installed_distributions scenario_env true stdlib_pkgs true false true
      ≠ [pip_tools_dist] := by decide

/-- C3, amended: in the scenario, `iter_distributions` yields `requests`
then `pip-tools` with exactly one warning, for `~atplotlib`;
`iter_installed_distributions(local_only=True)` yields `requests`;
`iter_installed_distributions(local_only=False, editables_only=True)`
yields `pip-tools`; and `iter_installed_distributions(user_only=True)`
yields nothing, because the default `local_only=True` drops the non-local
`pip-tools`. -/
theorem scenario_results :
    (iter_distributions scenario_env).1 = [requests_dist, pip_tools_dist]
      ∧ (iter_distributions scenario_env).2 = [⟨"~atplotlib", none⟩]
      ∧ iter_installed_distributions scenario_env true stdlib_pkgs true
          false false = [requests_dist]
      ∧ iter_installed_distributions scenario_env false stdlib_pkgs true
          true false = [pip_tools_dist]
      ∧ iter_installed_distributions scenario_env true stdlib_pkgs true
          false true = [] := by decide

/-- A raw `_iter_distributions` run observed as a stream: the
distributions it yielded, then the exception it raised, if any (`none`
when iteration finished normally).  `ε` is the hook's exception type. -/
structure RawStream (ε : Type) where
  items : List BaseDistribution
  hook_err : Option ε

/-- `iter_distributions` over a raw stream that may end in a raised
exception.  The per-item body either yields the distribution or warns and
continues — it has no raising path — so the only error that can reach the
output is the one the hook itself raised. -/
def iter_distributions_go {ε : Type} :
    List BaseDistribution → Option ε →
      (List BaseDistribution × List Warning) × Option ε
  | [], e => (([], []), e)
  | dist :: rest, e =>
    let out := iter_distributions_go rest e
    if project_name_valid dist.canonical_name then
      ((dist :: out.1.1, out.1.2), out.2)
    else
      ((out.1.1, ⟨dist.canonical_name, dist.location⟩ :: out.1.2), out.2)

/-- `iter_distributions` applied to a possibly-raising raw stream. -/
def iter_distributions_guarded {ε : Type} (raw : RawStream ε) :
    (List BaseDistribution × List Warning) × Option ε :=
  iter_distributions_go raw.items raw.hook_err

/-- C5: `iter_distributions` surfaces exactly the raw hook's exception —
so it raises nothing when the hook raises nothing, and a malformed name
never produces an error; the yielded/warned output is the usual validated
processing of the items the hook produced. -/
theorem iter_distributions_error_is_hooks {ε : Type} (raw : RawStream ε) :
    (iter_distributions_guarded raw).2 = raw.hook_err
      ∧ (iter_distributions_guarded raw).1 = iter_distributions raw.items := by
  unfold iter_distributions_guarded
  constructor
  · induction raw.items with
    | nil => rfl
    | cons d rest ih =>
      simp only [iter_distributions_go]
      cases project_name_valid d.canonical_name <;> simp [ih]
  · induction raw.items with
    | nil => rfl
    | cons d rest ih =>
      simp only [iter_distributions_go, iter_distributions]
      cases project_name_valid d.canonical_name <;> simp [ih]

/-- The exception raised by each abstract member that a concrete subclass
failed to override: Python's `NotImplementedError`. -/
inductive PyErr where
  | notImplementedError
  deriving DecidableEq

/-- Placeholder for `pip._internal.models.direct_url.DirectUrl`, defined
outside this fragment; only its identity matters here. -/
structure DirectUrl where
  url : String

/-- Placeholder for `pip._vendor.packaging`'s
`Union[LegacyVersion, Version]`, defined outside this fragment. -/
inductive DistributionVersion where
  | legacy (text : String)
  | standard (text : String)

/-- Placeholder for `pip._vendor.packaging.requirements.Requirement`,
defined outside this fragment. -/
structure Requirement where
  text : String

/-- Placeholder for the `BaseEnvironment` instance a factory would
return. -/
structure BaseEnvironmentHandle

/-! The members of `BaseDistribution` and `BaseEnvironment` exactly as
the base classes define them — every body is `raise NotImplementedError()`
— modelling an implementation that does not override them. -/

namespace AbstractDistribution

/-- `BaseDistribution.location` as the base class defines it. -/
def location : Except PyErr (Option String) :=
  Except.error PyErr.notImplementedError

/-- `BaseDistribution.metadata_version` as the base class defines it. -/
def metadata_version : Except PyErr (Option String) :=
  Except.error PyErr.notImplementedError

/-- `BaseDistribution.canonical_name` as the base class defines it. -/
def canonical_name : Except PyErr String :=
  Except.error PyErr.notImplementedError

/-- `BaseDistribution.version` as the base class defines it. -/
def version : Except PyErr DistributionVersion :=
  Except.error PyErr.notImplementedError

/-- `BaseDistribution.direct_url` as the base class defines it. -/
def direct_url : Except PyErr (Option DirectUrl) :=
  Except.error PyErr.notImplementedError

/-- `BaseDistribution.installer` as the base class defines it. -/
def installer : Except PyErr String :=
  Except.error PyErr.notImplementedError

/-- `BaseDistribution.editable` as the base class defines it. -/
def editable : Except PyErr Bool :=
  Except.error PyErr.notImplementedError

/-- `BaseDistribution.local` as the base class defines it (`local` is a
Lean keyword, hence `is_local`). -/
def is_local : Except PyErr Bool :=
  Except.error PyErr.notImplementedError

/-- `BaseDistribution.in_usersite` as the base class defines it. -/
def in_usersite : Except PyErr Bool :=
  Except.error PyErr.notImplementedError

/-- `BaseDistribution.iter_dependencies` as the base class defines it. -/
def iter_dependencies (extras : List String) :
    Except PyErr (List Requirement) :=
  Except.error PyErr.notImplementedError

end AbstractDistribution

namespace AbstractEnvironment

/-- `BaseEnvironment.default` as the base class defines it. -/
def default : Except PyErr BaseEnvironmentHandle :=
  Except.error PyErr.notImplementedError

/-- `BaseEnvironment.from_paths` as the base class defines it. -/
def from_paths (paths : Option (List String)) :
    Except PyErr BaseEnvironmentHandle :=
  Except.error PyErr.notImplementedError

/-- `BaseEnvironment.get_distribution` as the base class defines it. -/
def get_distribution (name : String) :
    Except PyErr (Option BaseDistribution) :=
  Except.error PyErr.notImplementedError

/-- `BaseEnvironment._iter_distributions` as the base class defines
it. -/
def _iter_distributions : Except PyErr (List BaseDistribution) :=
  Except.error PyErr.notImplementedError

end AbstractEnvironment

/-- C8: every abstract member — the nine `BaseDistribution` accessors,
`iter_dependencies`, and `BaseEnvironment.default`, `from_paths`,
`get_distribution`, `_iter_distributions` — raises `NotImplementedError`
when not overridden, instead of returning a value. -/
theorem abstract_members_raise_not_implemented :
    AbstractDistribution.location = Except.error PyErr.notImplementedError
      ∧ AbstractDistribution.metadata_version
          = Except.error PyErr.notImplementedError
      ∧ AbstractDistribution.canonical_name
          = Except.error PyErr.notImplementedError
      ∧ AbstractDistribution.version = Except.error PyErr.notImplementedError
      ∧ AbstractDistribution.direct_url
          = Except.error PyErr.notImplementedError
      ∧ AbstractDistribution.installer
          = Except.error PyErr.notImplementedError
      ∧ AbstractDistribution.editable = Except.error PyErr.notImplementedError
      ∧ AbstractDistribution.is_local = Except.error PyErr.notImplementedError
      ∧ AbstractDistribution.in_usersite
          = Except.error PyErr.notImplementedError
      ∧ (∀ extras, AbstractDistribution.iter_dependencies extras
          = Except.error PyErr.notImplementedError)
      ∧ AbstractEnvironment.default = Except.error PyErr.notImplementedError
      ∧ (∀ paths, AbstractEnvironment.from_paths paths
          = Except.error PyErr.notImplementedError)
      ∧ (∀ name, AbstractEnvironment.get_distribution name
          = Except.error PyErr.notImplementedError)
      ∧ AbstractEnvironment._iter_distributions
          = Except.error PyErr.notImplementedError :=
  ⟨rfl, rfl, rfl, rfl, rfl, rfl, rfl, rfl, rfl, fun _ => rfl, rfl,
    fun _ => rfl, fun _ => rfl, rfl⟩

/-- Two distributions agree on everything the filtering pipeline reads:
`canonical_name`, `local`, `editable`, `in_usersite` (`location` is free
to differ). -/
def agree (a b : BaseDistribution) : Prop :=
  a.canonical_name = b.canonical_name ∧ a.is_local = b.is_local
    ∧ a.editable = b.editable ∧ a.in_usersite = b.in_usersite

theorem forall₂_filter_of_agree {p : BaseDistribution → Bool}
    (hp : ∀ a b, agree a b → p a = p b) :
    ∀ {l1 l2 : List BaseDistribution}, List.Forall₂ agree l1 l2 →
      List.Forall₂ agree (l1.filter p) (l2.filter p) := by
  intro l1 l2 h
  induction h with
  | nil => exact List.Forall₂.nil
  | cons hab htail ih =>
    simp only [List.filter_cons]
    rw [hp _ _ hab]
    cases h2 : p _ with
    | false => exact ih
    | true => exact List.Forall₂.cons hab ih

/-- C10: the enumeration pipeline is a pure function of the raw stream
and the arguments, and filtering reads only `canonical_name`, `local`,
`editable` and `in_usersite`: raw streams that agree pointwise on those
fields produce outputs that agree pointwise on them, for both
`iter_distributions` and `iter_installed_distributions`. -/
theorem pipeline_depends_only_on_filter_fields (lo : Bool)
    (skip : List String) (ie eo uo : Bool)
    (raw1 raw2 : List BaseDistribution)
    (h : List.Forall₂ agree raw1 raw2) :
    List.Forall₂ agree ((iter_distributions raw1).1)
        ((iter_distributions raw2).1)
      ∧ List.Forall₂ agree
        (iter_installed_distributions raw1 lo skip ie eo uo)
        (iter_installed_distributions raw2 lo skip ie eo uo) := by
  have hvalid : List.Forall₂ agree ((iter_distributions raw1).1)
      ((iter_distributions raw2).1) := by
    rw [iter_distributions_fst, iter_distributions_fst]
    exact forall₂_filter_of_agree (fun a b hab => by rw [hab.1]) h
  refine ⟨hvalid, ?_⟩
  rw [iter_installed_distributions_eq_filter,
    iter_installed_distributions_eq_filter]
  apply forall₂_filter_of_agree _ hvalid
  intro a b hab
  obtain ⟨h1, h2, h3, h4⟩ := hab
  rw [h1, h2, h3, h4]

/-- Witness for C10: two one-element raw streams whose entries differ
only in `location` produce agreeing outputs. -/
theorem pipeline_depends_only_on_filter_fields_witness :
    List.Forall₂ agree
        ((iter_distributions [⟨"requests", none, true, false, false⟩]).1)
        ((iter_distributions
          [⟨"requests", some "/srv/site", true, false, false⟩]).1)
      ∧ List.Forall₂ agree
        (iter_installed_distributions
          [⟨"requests", none, true, false, false⟩]
          true stdlib_pkgs true false false)
        (iter_installed_distributions
          [⟨"requests", some "/srv/site", true, false, false⟩]
          true stdlib_pkgs true false false) :=
  pipeline_depends_only_on_filter_fields true stdlib_pkgs true false false
    [⟨"requests", none, true, false, false⟩]
    [⟨"requests", some "/srv/site", true, false, false⟩]
    (List.Forall₂.cons ⟨rfl, rfl, rfl, rfl⟩ List.Forall₂.nil)

end PipMetadata
